import Mathlib

/-!
# Verification of the polling / retry utilities

A shallow embedding of the condition-polling and action-retry primitives of
the test-automation framework:

* `waitForCondition` — from `src/utils/waitHelpers` (the generic polling
  condition evaluator): records a start time, loops `while (Date.now() -
  startTime < timeout)`, evaluates the condition inside a `try`/`catch` that
  swallows evaluation errors, returns on a `true` result, otherwise sleeps
  `interval` ms, and finally throws
  `` `${message} (timeout: ${timeout}ms)` ``.
* `retryAction` — the action-retry sibling: `for attempt = 1; attempt <=
  maxRetries`, try the action, on success return, on failure record the last
  error, call `onRetry(attempt, error)` when supplied, sleep `delay` ms unless
  this was the final attempt, and after the loop throw
  `` `Action failed after ${maxRetries} retries. Last error: ${lastError?.message}` ``.
* `waitForApiCondition` — from the API helpers module: its own polling loop
  with the same `while` guard but with no `try`/`catch` around the fetch and
  the condition test, and with defaults `timeout || 30000`,
  `interval || 2000`.

Time model: condition/action evaluation is instantaneous; each sleep advances
the clock by exactly the configured interval/delay, so the elapsed time when
the k-th (0-based) evaluation starts is `k * interval`.  Machine numbers are
`Nat` (all the quantities involved are millisecond counts).  JavaScript's
`||`-defaulting of option fields is modelled explicitly: an absent field and
a present zero both select the default.
-/

/-- Outcome of one evaluation of a condition: the JS function either returns
a boolean or throws an error (modelled by its message). -/
inductive EvalResult where
  | ok (b : Bool)
  | err (e : String)
deriving DecidableEq, Repr

/-- Outcome of one invocation of a retried action: the JS function either
returns a value or throws an error (modelled by its message). -/
inductive RunResult (α : Type) where
  | ok (v : α)
  | err (e : String)
deriving DecidableEq, Repr

/-- JavaScript `x || d` for an optional numeric option field: `undefined`
and `0` are falsy, so both select the default. -/
def jsOrNat (x : Option Nat) (d : Nat) : Nat :=
  match x with
  | none => d
  | some v => if v = 0 then d else v

/-- JavaScript `x || d` for an optional string option field: `undefined`
and the empty string are falsy, so both select the default. -/
def jsOrStr (x : Option String) (d : String) : String :=
  match x with
  | none => d
  | some s => if s = "" then d else s

/-- `TIMEOUTS.MEDIUM` from the shared constants module ("Medium timeout for
standard operations"). -/
def TIMEOUTS.MEDIUM : Nat := 10000

/-- `WAIT.RETRY` from the shared constants module ("Wait between retry
attempts"). -/
def WAIT.RETRY : Nat := 2000

/-- The options record of `waitForCondition`:
`{ timeout?: number; interval?: number; message?: string }`. -/
structure WaitOptions where
  timeout : Option Nat
  interval : Option Nat
  message : Option String
deriving DecidableEq, Repr

/-- `const timeout = options.timeout || TIMEOUTS.MEDIUM`. -/
def WaitOptions.effTimeout (o : WaitOptions) : Nat :=
  jsOrNat o.timeout TIMEOUTS.MEDIUM

/-- `const interval = options.interval || WAIT.RETRY`. -/
def WaitOptions.effInterval (o : WaitOptions) : Nat :=
  jsOrNat o.interval WAIT.RETRY

/-- `const message = options.message || 'Condition was not met within timeout'`. -/
def WaitOptions.effMessage (o : WaitOptions) : String :=
  jsOrStr o.message "Condition was not met within timeout"

/-- Observable outcome of a polling run, in the instantaneous-evaluation
clock model: `evals` counts condition evaluations performed, `elapsed` is the
clock reading (ms since the recorded start time) at the return or throw.
`timedOut` is the terminal timeout throw with its message; `errored` is an
evaluation error propagated (uncaught) to the caller; `diverged` is reachable
only when the step budget of the fuelled loop runs out and never occurs for the
configurations the theorems consider. -/
inductive WaitOutcome where
  | success (evals elapsed : Nat)
  | timedOut (evals elapsed : Nat) (msg : String)
  | errored (evals elapsed : Nat) (e : String)
  | diverged
deriving DecidableEq, Repr

/-- The timeout message of `waitForCondition`:
`` `${message} (timeout: ${timeout}ms)` ``. -/
def timeoutMsg (message : String) (timeout : Nat) : String :=
  message ++ " (timeout: " ++ toString timeout ++ "ms)"

/-- The `while (Date.now() - startTime < timeout)` loop of
`waitForCondition`.  `cond k` is the result of the k-th (0-based) evaluation
of the condition; at that point the clock reads `k * interval`.  The
`try`/`catch` swallows an `err` result exactly like an `ok false`
(`// Ignore errors during polling, will timeout if condition never
succeeds`), so both fall through to the sleep.  `fuel` bounds the number of
loop iterations so the function is total; the loop exits on its own after at
most `timeout` iterations whenever `interval ≥ 1`. -/
def waitLoop (cond : Nat → EvalResult) (timeout interval : Nat)
    (message : String) : Nat → Nat → WaitOutcome
  | 0, _ => .diverged
  | fuel + 1, k =>
    if k * interval < timeout then
      match cond k with
      | .ok true => .success (k + 1) (k * interval)
      | .ok false => waitLoop cond timeout interval message fuel (k + 1)
      | .err _ => waitLoop cond timeout interval message fuel (k + 1)
    else
      .timedOut k (k * interval) (timeoutMsg message timeout)

/-- `waitForCondition(condition, options)`: apply the `||` defaults, then run
the polling loop from the recorded start time (clock 0, evaluation index 0).
The fuel `effTimeout + 1` covers every iteration the guard can admit when the
effective interval is positive (and the effective interval is positive for
every input, since `WAIT.RETRY > 0`). -/
def waitForCondition (cond : Nat → EvalResult) (options : WaitOptions) :
    WaitOutcome :=
  waitLoop cond options.effTimeout options.effInterval options.effMessage
    (options.effTimeout + 1) 0

/-- The options record of `retryAction`:
`{ maxRetries?: number; delay?: number; onRetry?: ... }`.  The `onRetry`
callback is modelled by recording, in the outcome, the exact argument list it
would be invoked with (a caller that omits it simply ignores that record). -/
structure RetryOptions where
  maxRetries : Option Nat
  delay : Option Nat
deriving DecidableEq, Repr

/-- `const maxRetries = options.maxRetries || 3`. -/
def RetryOptions.effMaxRetries (o : RetryOptions) : Nat :=
  jsOrNat o.maxRetries 3

/-- `const delay = options.delay || WAIT.RETRY`. -/
def RetryOptions.effDelay (o : RetryOptions) : Nat :=
  jsOrNat o.delay WAIT.RETRY

/-- Observable outcome of a `retryAction` run: the returned value or thrown
terminal error message, the number of invocations of the action, the list of
`onRetry(attempt, error)` invocations in order, and the total milliseconds
spent in the between-attempt sleeps. -/
structure RetryOutcome (α : Type) where
  result : Except String α
  attempts : Nat
  onRetryCalls : List (Nat × String)
  sleptMs : Nat
deriving Repr

/-- The terminal error message of `retryAction`:
`` `Action failed after ${maxRetries} retries. Last error: ${lastError?.message}` ``
(`lastError?.message` interpolates to `"undefined"` when no attempt ever ran). -/
def retryFailMsg (maxRetries : Nat) (lastError : Option String) : String :=
  "Action failed after " ++ toString maxRetries ++ " retries. Last error: " ++
    (match lastError with
     | some e => e
     | none => "undefined")

/-- Bookkeeping for one failed attempt of the retry loop: the rest of the
run happens after this attempt's `onRetry(attempt, error)` call and its
(possibly zero-length) sleep. -/
def retryStep {α : Type} (attempt : Nat) (e : String) (sleep : Nat)
    (rest : RetryOutcome α) : RetryOutcome α :=
  { result := rest.result
    attempts := rest.attempts + 1
    onRetryCalls := (attempt, e) :: rest.onRetryCalls
    sleptMs := rest.sleptMs + sleep }

/-- The `for (let attempt = 1; attempt <= maxRetries; attempt++)` loop of
`retryAction`.  `action j` is the result of the j-th (1-based) invocation.
`left` is the number of attempts the `for` guard still admits, so the loop
body runs with `attempt = maxRetries - left + 1` and sleeps after a failure
exactly when `attempt < maxRetries`, i.e. when further attempts remain
(`left > 0` after this one).  When `left` reaches 0 the loop exits and the
terminal error is thrown with the recorded last error. -/
def retryLoop {α : Type} (action : Nat → RunResult α) (maxRetries delay : Nat) :
    Nat → Nat → Option String → RetryOutcome α
  | 0, _, lastError =>
    { result := .error (retryFailMsg maxRetries lastError)
      attempts := 0
      onRetryCalls := []
      sleptMs := 0 }
  | left + 1, attempt, _ =>
    match action attempt with
    | .ok v =>
      { result := .ok v, attempts := 1, onRetryCalls := [], sleptMs := 0 }
    | .err e =>
      retryStep attempt e (if 0 < left then delay else 0)
        (retryLoop action maxRetries delay left (attempt + 1) (some e))

/-- `retryAction(action, options)`: apply the `||` defaults and run the
attempt loop from attempt 1 with `maxRetries` attempts admitted and no
recorded last error. -/
def retryAction {α : Type} (action : Nat → RunResult α)
    (options : RetryOptions) : RetryOutcome α :=
  retryLoop action options.effMaxRetries options.effDelay
    options.effMaxRetries 1 none

/-- The options record of `waitForApiCondition`:
`{ timeout?: number; interval?: number }`. -/
structure ApiWaitOptions where
  timeout : Option Nat
  interval : Option Nat
deriving DecidableEq, Repr

/-- `const timeout = options.timeout || 30000`. -/
def ApiWaitOptions.effTimeout (o : ApiWaitOptions) : Nat :=
  jsOrNat o.timeout 30000

/-- `const interval = options.interval || 2000`. -/
def ApiWaitOptions.effInterval (o : ApiWaitOptions) : Nat :=
  jsOrNat o.interval 2000

/-- The timeout message of `waitForApiCondition`:
`` `API condition not met within timeout (${timeout}ms)` ``. -/
def apiTimeoutMsg (timeout : Nat) : String :=
  "API condition not met within timeout (" ++ toString timeout ++ "ms)"

/-- The `while (Date.now() - startTime < timeout)` loop of
`waitForApiCondition`.  `cond k` is the result of the k-th (0-based) poll
attempt, i.e. of `condition(await get(apiContext, endpoint))`: `ok b` when
the fetch succeeded and the condition test returned `b`, `err e` when the
fetch or the condition test threw.  There is no `try`/`catch` in this loop,
so an `err` propagates to the caller at once and polling stops. -/
def apiWaitLoop (cond : Nat → EvalResult) (timeout interval : Nat) :
    Nat → Nat → WaitOutcome
  | 0, _ => .diverged
  | fuel + 1, k =>
    if k * interval < timeout then
      match cond k with
      | .ok true => .success (k + 1) (k * interval)
      | .ok false => apiWaitLoop cond timeout interval fuel (k + 1)
      | .err e => .errored (k + 1) (k * interval) e
    else
      .timedOut k (k * interval) (apiTimeoutMsg timeout)

/-- `waitForApiCondition(apiContext, endpoint, condition, options)`: apply
the `||` defaults (30000 / 2000) and run the uncaught polling loop.  The
fetch-and-test of one poll attempt is abstracted as the evaluation function
`cond`, since the network request itself is outside the embedded core. -/
def waitForApiCondition (cond : Nat → EvalResult) (options : ApiWaitOptions) :
    WaitOutcome :=
  apiWaitLoop cond options.effTimeout options.effInterval
    (options.effTimeout + 1) 0

/-- Erase the human-readable message of a terminal timeout, leaving the
observable shape (which constructor, evaluation count, elapsed time). -/
def WaitOutcome.stripMsg : WaitOutcome → WaitOutcome
  | .timedOut n e _ => .timedOut n e ""
  | o => o

/-! ## Basic facts about option defaulting -/

theorem jsOrNat_pos (x : Option Nat) {d : Nat} (hd : 0 < d) :
    0 < jsOrNat x d := by
  rcases x with _ | v
  · exact hd
  · by_cases hv : v = 0 <;> simp [jsOrNat, hv] <;> omega

theorem jsOrNat_some_pos {v : Nat} (d : Nat) (hv : 0 < v) :
    jsOrNat (some v) d = v := by
  simp [jsOrNat, Nat.pos_iff_ne_zero.mp hv]

theorem jsOrStr_some_ne {s : String} (d : String) (hs : s ≠ "") :
    jsOrStr (some s) d = s := by
  simp [jsOrStr, hs]

theorem effTimeout_pos (o : WaitOptions) : 0 < o.effTimeout :=
  jsOrNat_pos o.timeout (by decide)

theorem effInterval_pos (o : WaitOptions) : 0 < o.effInterval :=
  jsOrNat_pos o.interval (by decide)

theorem effMaxRetries_pos (o : RetryOptions) : 0 < o.effMaxRetries :=
  jsOrNat_pos o.maxRetries (by decide)

theorem apiEffTimeout_pos (o : ApiWaitOptions) : 0 < o.effTimeout :=
  jsOrNat_pos o.timeout (by decide)

theorem waitForCondition_eq_loop (cond : Nat → EvalResult) (o : WaitOptions) :
    waitForCondition cond o =
      waitLoop cond o.effTimeout o.effInterval o.effMessage
        (o.effTimeout + 1) 0 := rfl

theorem waitForCondition_explicit (cond : Nat → EvalResult) (t i : Nat)
    (mo : Option String) (ht : 0 < t) (hi : 0 < i) :
    waitForCondition cond ⟨some t, some i, mo⟩ =
      waitLoop cond t i (jsOrStr mo "Condition was not met within timeout")
        (t + 1) 0 := by
  rw [waitForCondition_eq_loop]
  simp only [WaitOptions.effTimeout, WaitOptions.effInterval,
    WaitOptions.effMessage, jsOrNat_some_pos _ ht, jsOrNat_some_pos _ hi]

/-! ## Behaviour of the polling loop -/

theorem waitLoop_succeeds (cond : Nat → EvalResult) (t i : Nat) (m : String)
    (K : Nat) (hK : K * i < t)
    (hbefore : ∀ j, j < K → cond j ≠ .ok true)
    (htrue : cond K = .ok true) :
    ∀ c k fuel, k + c = K → c < fuel →
      waitLoop cond t i m fuel k = .success (K + 1) (K * i) := by
  intro c
  induction c with
  | zero =>
    intro k fuel hk hf
    obtain ⟨f, rfl⟩ : ∃ f, fuel = f + 1 := ⟨fuel - 1, by omega⟩
    have hkK : k = K := by omega
    subst hkK
    simp only [waitLoop]
    rw [if_pos hK, htrue]
  | succ c ih =>
    intro k fuel hk hf
    obtain ⟨f, rfl⟩ : ∃ f, fuel = f + 1 := ⟨fuel - 1, by omega⟩
    have hkK : k < K := by omega
    have hguard : k * i < t :=
      lt_of_le_of_lt (Nat.mul_le_mul_right i (Nat.le_of_lt hkK)) hK
    simp only [waitLoop]
    rw [if_pos hguard]
    rcases hck : cond k with b | s
    · rcases b
      · exact ih (k + 1) f (by omega) (by omega)
      · exact absurd hck (hbefore k hkK)
    · exact ih (k + 1) f (by omega) (by omega)

theorem waitLoop_times_out (cond : Nat → EvalResult) (t i : Nat) (m : String)
    (N : Nat) (hNt : t ≤ N * i)
    (hNmin : ∀ j, j < N → j * i < t)
    (hc : ∀ j, j < N → cond j ≠ .ok true) :
    ∀ c k fuel, k + c = N → c < fuel →
      waitLoop cond t i m fuel k = .timedOut N (N * i) (timeoutMsg m t) := by
  intro c
  induction c with
  | zero =>
    intro k fuel hk hf
    obtain ⟨f, rfl⟩ : ∃ f, fuel = f + 1 := ⟨fuel - 1, by omega⟩
    have hkK : k = N := by omega
    subst hkK
    simp only [waitLoop]
    rw [if_neg (Nat.not_lt.mpr hNt)]
  | succ c ih =>
    intro k fuel hk hf
    obtain ⟨f, rfl⟩ : ∃ f, fuel = f + 1 := ⟨fuel - 1, by omega⟩
    have hkK : k < N := by omega
    simp only [waitLoop]
    rw [if_pos (hNmin k hkK)]
    rcases hck : cond k with b | s
    · rcases b
      · exact ih (k + 1) f (by omega) (by omega)
      · exact absurd hck (hc k hkK)
    · exact ih (k + 1) f (by omega) (by omega)

theorem waitLoop_success_shape (cond : Nat → EvalResult) (t i : Nat)
    (m : String) :
    ∀ fuel k n el, waitLoop cond t i m fuel k = .success n el →
      1 ≤ n ∧ el = (n - 1) * i := by
  intro fuel
  induction fuel with
  | zero =>
    intro k n el h
    simp [waitLoop] at h
  | succ f ih =>
    intro k n el h
    simp only [waitLoop] at h
    by_cases hg : k * i < t
    · rw [if_pos hg] at h
      rcases hck : cond k with b | s
      · rcases b
        · rw [hck] at h
          exact ih (k + 1) n el h
        · rw [hck] at h
          cases h
          exact ⟨by omega, by rw [Nat.add_sub_cancel]⟩
      · rw [hck] at h
        exact ih (k + 1) n el h
    · rw [if_neg hg] at h
      exact absurd h (by simp)

theorem waitLoop_congr_okTrue (cond cond' : Nat → EvalResult) (t i : Nat)
    (m : String) (h : ∀ j, cond j = .ok true ↔ cond' j = .ok true) :
    ∀ fuel k, waitLoop cond t i m fuel k = waitLoop cond' t i m fuel k := by
  intro fuel
  induction fuel with
  | zero => intro k; rfl
  | succ f ih =>
    intro k
    simp only [waitLoop]
    by_cases hg : k * i < t
    · rw [if_pos hg, if_pos hg]
      rcases hck : cond k with b | s
      · rcases b
        · rcases hck' : cond' k with b' | s'
          · rcases b'
            · exact ih (k + 1)
            · exact absurd ((h k).mpr hck') (by rw [hck]; simp)
          · exact ih (k + 1)
        · rw [((h k).mp hck)]
      · rcases hck' : cond' k with b' | s'
        · rcases b'
          · exact ih (k + 1)
          · exact absurd ((h k).mpr hck') (by rw [hck]; simp)
        · exact ih (k + 1)
    · rw [if_neg hg, if_neg hg]

/-! ## Behaviour of the retry loop -/

/-- The argument list the `onRetry` observer receives over `left` consecutive
failed attempts starting at attempt number `attempt`. -/
def callList (e : Nat → String) (attempt left : Nat) : List (Nat × String) :=
  (List.range left).map (fun j => (attempt + j, e (attempt + j)))

theorem callList_zero (e : Nat → String) (attempt : Nat) :
    callList e attempt 0 = [] := rfl

theorem callList_succ (e : Nat → String) (attempt l : Nat) :
    callList e attempt (l + 1) =
      (attempt, e attempt) :: callList e (attempt + 1) l := by
  simp only [callList, List.range_succ_eq_map, List.map_cons, List.map_map]
  refine congrArg₂ List.cons (by simp) ?_
  refine List.map_congr_left fun a _ => ?_
  have h : attempt + (a + 1) = attempt + 1 + a := by omega
  simp [Function.comp, Nat.succ_eq_add_one, h]

theorem callList_one (e : Nat → String) (n : Nat) :
    callList e 1 n = (List.range n).map (fun j => (j + 1, e (j + 1))) := by
  refine List.map_congr_left fun a _ => ?_
  rw [Nat.add_comm]

theorem retryLoop_allFail {α : Type} (action : Nat → RunResult α)
    (e : Nat → String) (M d : Nat) (ha : ∀ j, action j = .err (e j)) :
    ∀ left attempt lastErr,
      retryLoop action M d left attempt lastErr =
        { result := .error (retryFailMsg M
            (if left = 0 then lastErr else some (e (attempt + left - 1))))
          attempts := left
          onRetryCalls := callList e attempt left
          sleptMs := (left - 1) * d } := by
  intro left
  induction left with
  | zero =>
    intro attempt lastErr
    simp [retryLoop, callList_zero]
  | succ l ih =>
    intro attempt lastErr
    simp only [retryLoop, ha attempt]
    rw [ih (attempt + 1) (some (e attempt))]
    simp only [retryStep, callList_succ]
    refine congrArg₂ (fun a b => RetryOutcome.mk a (l + 1) ((attempt, e attempt) :: callList e (attempt + 1) l) b) ?_ ?_
    · rcases l with _ | l'
      · simp
      · have h : attempt + 1 + (l' + 1) - 1 = attempt + (l' + 1 + 1) - 1 := by omega
        simp [h]
    · rcases l with _ | l'
      · simp
      · simp [Nat.succ_mul, Nat.succ_sub_one]

theorem retryLoop_succAt {α : Type} (action : Nat → RunResult α)
    (e : Nat → String) (v : α) (M d N : Nat) (hNM : N ≤ M)
    (hok : action N = .ok v)
    (hfail : ∀ j, 1 ≤ j → j < N → action j = .err (e j)) :
    ∀ c attempt lastErr, attempt + c = N → 1 ≤ attempt →
      retryLoop action M d (M + 1 - attempt) attempt lastErr =
        { result := .ok v
          attempts := N + 1 - attempt
          onRetryCalls := callList e attempt (N - attempt)
          sleptMs := (N - attempt) * d } := by
  intro c
  induction c with
  | zero =>
    intro attempt lastErr hc h1
    have hattempt : attempt = N := by omega
    subst hattempt
    obtain ⟨l, hl⟩ : ∃ l, M + 1 - attempt = l + 1 := ⟨M - attempt, by omega⟩
    rw [hl]
    simp only [retryLoop, hok]
    have h2 : attempt + 1 - attempt = 1 := by omega
    have h3 : attempt - attempt = 0 := by omega
    rw [h2, h3, callList_zero, Nat.zero_mul]
  | succ c ih =>
    intro attempt lastErr hc h1
    have hattempt : attempt < N := by omega
    obtain ⟨l, hl⟩ : ∃ l, M + 1 - attempt = l + 1 := ⟨M - attempt, by omega⟩
    have hlpos : 0 < l := by omega
    rw [hl]
    simp only [retryLoop, hfail attempt h1 hattempt]
    have hnext : M + 1 - (attempt + 1) = l := by omega
    rw [← hnext] at *
    rw [ih (attempt + 1) (some (e attempt)) (by omega) (by omega)]
    simp only [retryStep, if_pos hlpos]
    have h4 : N + 1 - (attempt + 1) + 1 = N + 1 - attempt := by omega
    have h5 : N - attempt = (N - (attempt + 1)) + 1 := by omega
    rw [h4, h5, callList_succ, Nat.succ_mul]
    have h6 : 0 < M + 1 - (attempt + 1) := by omega
    rw [if_pos h6]

theorem retryLoop_ok_shape {α : Type} (action : Nat → RunResult α)
    (M d : Nat) :
    ∀ left attempt lastErr (v : α),
      (retryLoop action M d left attempt lastErr).result = .ok v →
        1 ≤ (retryLoop action M d left attempt lastErr).attempts ∧
        (retryLoop action M d left attempt lastErr).sleptMs =
          ((retryLoop action M d left attempt lastErr).attempts - 1) * d := by
  intro left
  induction left with
  | zero =>
    intro attempt lastErr v h
    simp [retryLoop] at h
  | succ l ih =>
    intro attempt lastErr v h
    simp only [retryLoop] at h ⊢
    rcases hact : action attempt with w | s
    · simp
    · rw [hact] at h
      rcases l with _ | l'
      · simp only [retryStep, retryLoop] at h
        simp at h
      · have hres : (retryLoop action M d (l' + 1) (attempt + 1)
            (some s)).result = .ok v := by
          simpa [retryStep] using h
        obtain ⟨h1, h2⟩ := ih (attempt + 1) (some s) v hres
        simp only [retryStep]
        constructor
        · omega
        · rw [if_pos (by omega : 0 < l' + 1), h2]
          have h3 : (retryLoop action M d (l' + 1) (attempt + 1)
              (some s)).attempts + 1 - 1 =
              ((retryLoop action M d (l' + 1) (attempt + 1)
                (some s)).attempts - 1) + 1 := by omega
          rw [h3, Nat.succ_mul]

/-! ## The API polling loop against the generic evaluator -/

theorem apiWaitLoop_stripMsg_eq (cond : Nat → EvalResult) (t i : Nat)
    (m : String) (hnoerr : ∀ k s, cond k ≠ .err s) :
    ∀ fuel k, (apiWaitLoop cond t i fuel k).stripMsg =
      (waitLoop cond t i m fuel k).stripMsg := by
  intro fuel
  induction fuel with
  | zero => intro k; rfl
  | succ f ih =>
    intro k
    simp only [apiWaitLoop, waitLoop]
    by_cases hg : k * i < t
    · rw [if_pos hg, if_pos hg]
      rcases hck : cond k with b | s
      · rcases b
        · exact ih (k + 1)
        · rfl
      · exact absurd hck (hnoerr k s)
    · rw [if_neg hg, if_neg hg]
      rfl

/-! ## Substring facts about the produced messages -/

theorem string_append_assoc4 (a b c d : String) :
    a ++ b ++ c ++ d = a ++ (b ++ (c ++ d)) := by
  rw [String.append_assoc, String.append_assoc]

theorem timeoutMsg_has_message (m : String) (t : Nat) :
    ∃ p q, timeoutMsg m t = p ++ m ++ q := by
  refine ⟨"", " (timeout: " ++ (toString t ++ "ms)"), ?_⟩
  simp only [timeoutMsg, String.empty_append, String.append_assoc]

theorem timeoutMsg_has_timeout_ms (m : String) (t : Nat) :
    ∃ p q, timeoutMsg m t = p ++ (toString t ++ "ms") ++ q := by
  refine ⟨m ++ " (timeout: ", ")", ?_⟩
  have hms : ("ms)" : String) = "ms" ++ ")" := rfl
  simp only [timeoutMsg, hms, String.append_assoc]

theorem retryFailMsg_has_count (M : Nat) (s : String) :
    ∃ p q, retryFailMsg M (some s) = p ++ toString M ++ q := by
  refine ⟨"Action failed after ", " retries. Last error: " ++ s, ?_⟩
  simp only [retryFailMsg, String.append_assoc]

theorem retryFailMsg_has_lastError (M : Nat) (s : String) :
    ∃ p q, retryFailMsg M (some s) = p ++ s ++ q := by
  refine ⟨"Action failed after " ++ (toString M ++ " retries. Last error: "),
    "", ?_⟩
  simp only [retryFailMsg, String.append_assoc, String.append_empty]

/-! ## The claims -/

/-- **C1**: for every condition that never evaluates to `true` and every
configuration with positive timeout and positive interval, `waitForCondition`
ends in the timeout throw (never in a successful return); in the
instantaneous-evaluation clock model the elapsed time at the throw is at
least `timeout` and less than `timeout + interval`, and the thrown message
contains both the configured message and the configured timeout value in
milliseconds. -/
theorem waitForCondition_timeout_exhaustion
    (cond : Nat → EvalResult) (t i : Nat) (m : String)
    (ht : 0 < t) (hi : 0 < i) (hm : m ≠ "")
    (hc : ∀ k, cond k ≠ .ok true) :
    ∃ n, waitForCondition cond ⟨some t, some i, some m⟩ =
        .timedOut n (n * i) (timeoutMsg m t) ∧
      t ≤ n * i ∧ n * i < t + i ∧
      (∀ a b, waitForCondition cond ⟨some t, some i, some m⟩ ≠
        .success a b) ∧
      (∃ p q, timeoutMsg m t = p ++ m ++ q) ∧
      (∃ p q, timeoutMsg m t = p ++ (toString t ++ "ms") ++ q) := by
  have hex : ∃ k, t ≤ k * i := by
    refine ⟨t, ?_⟩
    have h := Nat.mul_le_mul_left t hi
    simpa using h
  have hNt : t ≤ Nat.find hex * i := Nat.find_spec hex
  have hNmin : ∀ j, j < Nat.find hex → j * i < t := fun j hj =>
    Nat.lt_of_not_le (Nat.find_min hex hj)
  have hN1 : 1 ≤ Nat.find hex := by
    rcases Nat.eq_zero_or_pos (Nat.find hex) with h0 | h
    · rw [h0] at hNt; simp at hNt; omega
    · exact h
  have hm1 : (Nat.find hex - 1) * i < t := hNmin (Nat.find hex - 1) (by omega)
  have hNle : Nat.find hex ≤ t := by
    have h2 : (Nat.find hex - 1) * 1 ≤ (Nat.find hex - 1) * i :=
      Nat.mul_le_mul_left _ hi
    omega
  have heq : waitForCondition cond ⟨some t, some i, some m⟩ =
      .timedOut (Nat.find hex) (Nat.find hex * i) (timeoutMsg m t) := by
    rw [waitForCondition_explicit cond t i (some m) ht hi,
      jsOrStr_some_ne _ hm]
    exact waitLoop_times_out cond t i m (Nat.find hex) hNt hNmin
      (fun j _ => hc j) (Nat.find hex) 0 (t + 1) (by omega) (by omega)
  refine ⟨Nat.find hex, heq, hNt, ?_, ?_, timeoutMsg_has_message m t,
    timeoutMsg_has_timeout_ms m t⟩
  · have h7 : Nat.find hex - 1 + 1 = Nat.find hex := by omega
    have h6 : Nat.find hex * i = (Nat.find hex - 1) * i + i := by
      rw [← h7, Nat.succ_mul, h7]
    omega
  · intro a b hab
    rw [heq] at hab
    exact WaitOutcome.noConfusion hab

/-- Witness for C1: a condition that is always `false`, timeout 100 ms,
interval 30 ms; the run times out after 4 evaluations at 120 ms elapsed. -/
theorem waitForCondition_timeout_exhaustion_witness :
    ∃ n, waitForCondition (fun _ => .ok false)
        ⟨some 100, some 30, some "cond failed"⟩ =
        .timedOut n (n * 30) (timeoutMsg "cond failed" 100) ∧
      100 ≤ n * 30 ∧ n * 30 < 100 + 30 ∧
      (∀ a b, waitForCondition (fun _ => .ok false)
        ⟨some 100, some 30, some "cond failed"⟩ ≠ .success a b) ∧
      (∃ p q, timeoutMsg "cond failed" 100 = p ++ "cond failed" ++ q) ∧
      (∃ p q, timeoutMsg "cond failed" 100 =
        p ++ (toString 100 ++ "ms") ++ q) :=
  waitForCondition_timeout_exhaustion (fun _ => .ok false) 100 30
    "cond failed" (by decide) (by decide) (by decide) (fun _ => by simp)

/-- **C2**: a condition that throws on its first M evaluations and returns
`true` on evaluation M+1 (with `M * interval < timeout`) makes
`waitForCondition` return successfully; none of the M intermediate errors is
propagated, and in general the evaluator's behaviour depends only on where
the condition evaluates to `true` — an evaluation that throws is treated
exactly like one that returns `false`. -/
theorem waitForCondition_error_tolerance
    (cond : Nat → EvalResult) (e : Nat → String) (M t i : Nat)
    (mo : Option String) (ht : 0 < t) (hi : 0 < i) (hMt : M * i < t)
    (herr : ∀ j, j < M → cond j = .err (e j))
    (htrue : cond M = .ok true) :
    waitForCondition cond ⟨some t, some i, mo⟩ = .success (M + 1) (M * i) ∧
    (∀ a b s, waitForCondition cond ⟨some t, some i, mo⟩ ≠
      .errored a b s) ∧
    (∀ (cond' : Nat → EvalResult) (o : WaitOptions),
      (∀ j, cond j = .ok true ↔ cond' j = .ok true) →
      waitForCondition cond o = waitForCondition cond' o) := by
  have hMle : M ≤ t := by
    have h2 : M * 1 ≤ M * i := Nat.mul_le_mul_left M hi
    omega
  have heq : waitForCondition cond ⟨some t, some i, mo⟩ =
      .success (M + 1) (M * i) := by
    rw [waitForCondition_explicit cond t i mo ht hi]
    exact waitLoop_succeeds cond t i _ M hMt
      (fun j hj => by rw [herr j hj]; simp) htrue M 0 (t + 1)
      (by omega) (by omega)
  refine ⟨heq, ?_, ?_⟩
  · intro a b s hab
    rw [heq] at hab
    exact WaitOutcome.noConfusion hab
  · intro cond' o h
    rw [waitForCondition_eq_loop, waitForCondition_eq_loop]
    exact waitLoop_congr_okTrue cond cond' o.effTimeout o.effInterval
      o.effMessage h (o.effTimeout + 1) 0

/-- Witness for C2: a condition that throws on its first 2 evaluations and
is `true` on the third, with timeout 100 ms and interval 30 ms: the run
succeeds at 60 ms elapsed after 3 evaluations. -/
theorem waitForCondition_error_tolerance_witness :
    waitForCondition
        (fun k => if k < 2 then .err ("boom" ++ toString k) else .ok true)
        ⟨some 100, some 30, none⟩ = .success 3 60 ∧
      (∀ a b s, waitForCondition
        (fun k => if k < 2 then .err ("boom" ++ toString k) else .ok true)
        ⟨some 100, some 30, none⟩ ≠ .errored a b s) := by
  have h := waitForCondition_error_tolerance
    (fun k => if k < 2 then .err ("boom" ++ toString k) else .ok true)
    (fun k => "boom" ++ toString k) 2 100 30 none (by decide) (by decide)
    (by decide) (fun j hj => by simp [hj]) (by simp)
  exact ⟨h.1, h.2.1⟩

/-- **C3**: for an action that throws on every invocation and any explicit
`maxRetries ≥ 1` (with an explicit positive delay), `retryAction` invokes
the action exactly `maxRetries` times, invokes `onRetry` once after each
failed attempt — the final one included — with the attempt number and that
attempt's error, sleeps only between attempts (`maxRetries - 1` sleeps of
`delay` ms, none after the final failure), and throws a terminal error
reporting the attempt count and the last error's message. -/
theorem retryAction_exhaustion {α : Type}
    (action : Nat → RunResult α) (e : Nat → String) (M d : Nat)
    (hM : 1 ≤ M) (hd : 0 < d)
    (ha : ∀ j, action j = .err (e j)) :
    retryAction action ⟨some M, some d⟩ =
      { result := .error (retryFailMsg M (some (e M)))
        attempts := M
        onRetryCalls := (List.range M).map (fun j => (j + 1, e (j + 1)))
        sleptMs := (M - 1) * d } ∧
    (∃ p q, retryFailMsg M (some (e M)) = p ++ toString M ++ q) ∧
    (∃ p q, retryFailMsg M (some (e M)) = p ++ e M ++ q) := by
  refine ⟨?_, retryFailMsg_has_count M (e M), retryFailMsg_has_lastError M (e M)⟩
  have heff : retryAction action ⟨some M, some d⟩ =
      retryLoop action M d M 1 none := by
    simp only [retryAction, RetryOptions.effMaxRetries, RetryOptions.effDelay,
      jsOrNat_some_pos _ (by omega : 0 < M), jsOrNat_some_pos _ hd]
  rw [heff, retryLoop_allFail action e M d ha M 1 none]
  have hif : (if M = 0 then (none : Option String)
      else some (e (1 + M - 1))) = some (e M) := by
    rw [if_neg (by omega : ¬M = 0)]
    have h1 : 1 + M - 1 = M := by omega
    rw [h1]
  rw [hif, callList_one]

/-- Witness for C3: an always-failing action with `maxRetries = 3` and
`delay = 50`: three invocations, three `onRetry` calls, two sleeps, and the
terminal message reports 3 retries and the third error. -/
theorem retryAction_exhaustion_witness :
    retryAction (fun j => (.err ("e" ++ toString j) : RunResult Nat))
        ⟨some 3, some 50⟩ =
      { result := .error (retryFailMsg 3 (some ("e" ++ toString 3)))
        attempts := 3
        onRetryCalls := (List.range 3).map
          (fun j => (j + 1, "e" ++ toString (j + 1)))
        sleptMs := (3 - 1) * 50 } ∧
    (∃ p q, retryFailMsg 3 (some ("e" ++ toString 3)) =
      p ++ toString 3 ++ q) ∧
    (∃ p q, retryFailMsg 3 (some ("e" ++ toString 3)) =
      p ++ ("e" ++ toString 3) ++ q) :=
  retryAction_exhaustion (fun j => .err ("e" ++ toString j))
    (fun j => "e" ++ toString j) 3 50 (by decide) (by decide) (fun _ => rfl)

/-- **C5**: for an action that throws on its first N−1 invocations and
succeeds on invocation N (with `N ≤ maxRetries`, explicit positive delay),
`retryAction` returns the value produced by the N-th invocation, invokes the
action exactly N times, and invokes `onRetry` exactly N−1 times with the
strictly increasing attempt numbers 1..N−1. -/
theorem retryAction_eventual_success {α : Type}
    (action : Nat → RunResult α) (e : Nat → String) (v : α) (N M d : Nat)
    (hN : 1 ≤ N) (hNM : N ≤ M) (hd : 0 < d)
    (hfail : ∀ j, 1 ≤ j → j < N → action j = .err (e j))
    (hok : action N = .ok v) :
    retryAction action ⟨some M, some d⟩ =
      { result := .ok v
        attempts := N
        onRetryCalls := (List.range (N - 1)).map
          (fun j => (j + 1, e (j + 1)))
        sleptMs := (N - 1) * d } := by
  have heff : retryAction action ⟨some M, some d⟩ =
      retryLoop action M d M 1 none := by
    simp only [retryAction, RetryOptions.effMaxRetries, RetryOptions.effDelay,
      jsOrNat_some_pos _ (by omega : 0 < M), jsOrNat_some_pos _ hd]
  have hM1 : M + 1 - 1 = M := by omega
  have hloop := retryLoop_succAt action e v M d N hNM hok hfail (N - 1) 1 none
    (by omega) (by omega)
  rw [hM1] at hloop
  rw [heff, hloop]
  have h2 : N + 1 - 1 = N := by omega
  rw [h2, callList_one]

/-- Witness for C5: an action failing on attempts 1 and 2 and succeeding on
attempt 3, with `maxRetries = 5`, `delay = 40`: the result is the third
attempt's value, 3 invocations, `onRetry` calls at attempts 1 and 2. -/
theorem retryAction_eventual_success_witness :
    retryAction
        (fun j => if j < 3 then (.err ("fail" ++ toString j) : RunResult Nat)
          else .ok 42)
        ⟨some 5, some 40⟩ =
      { result := .ok 42
        attempts := 3
        onRetryCalls := (List.range (3 - 1)).map
          (fun j => (j + 1, "fail" ++ toString (j + 1)))
        sleptMs := (3 - 1) * 40 } :=
  retryAction_eventual_success
    (fun j => if j < 3 then .err ("fail" ++ toString j) else .ok 42)
    (fun j => "fail" ++ toString j) 42 3 5 40 (by decide) (by decide)
    (by decide) (fun j _ hj => by simp [hj]) (by simp)

/-- **C6**: a condition that evaluates to `false` K−1 times and to `true` on
evaluation K (with `K * interval < timeout`, explicit positive timeout and
interval) makes `waitForCondition` return successfully having evaluated the
condition exactly K times, at `(K−1) * interval` elapsed in the
instantaneous-evaluation clock model. -/
theorem waitForCondition_eventual_success
    (cond : Nat → EvalResult) (K t i : Nat) (mo : Option String)
    (ht : 0 < t) (hi : 0 < i) (hK : 1 ≤ K) (hKt : K * i < t)
    (hfalse : ∀ j, j < K - 1 → cond j = .ok false)
    (htrue : cond (K - 1) = .ok true) :
    waitForCondition cond ⟨some t, some i, mo⟩ =
      .success K ((K - 1) * i) := by
  have hKm : (K - 1) * i < t := by
    have h2 : (K - 1) * i ≤ K * i := Nat.mul_le_mul_right i (by omega)
    omega
  have hKle : K - 1 ≤ t := by
    have h2 : (K - 1) * 1 ≤ (K - 1) * i := Nat.mul_le_mul_left _ hi
    omega
  have hloop := waitLoop_succeeds cond t i
    (jsOrStr mo "Condition was not met within timeout") (K - 1) hKm
    (fun j hj => by rw [hfalse j hj]; simp) htrue (K - 1) 0 (t + 1)
    (by omega) (by omega)
  rw [waitForCondition_explicit cond t i mo ht hi, hloop]
  have h3 : K - 1 + 1 = K := by omega
  rw [h3]

/-- Witness for C6, the spec's concrete scenario: timeout 5000 ms, interval
1000 ms, condition `counter++ >= 3` (so evaluation k sees counter value k):
4 evaluations, success at 3000 ms elapsed, under the 5000 ms timeout. -/
theorem waitForCondition_eventual_success_witness :
    waitForCondition (fun k => .ok (decide (3 ≤ k)))
        ⟨some 5000, some 1000, none⟩ = .success 4 3000 ∧ 3000 < 5000 := by
  have h := waitForCondition_eventual_success
    (fun k => .ok (decide (3 ≤ k))) 4 5000 1000 none (by decide) (by decide)
    (by decide) (by decide)
    (fun j hj => by
      simp only [EvalResult.ok.injEq, decide_eq_false_iff_not]
      omega)
    (by simp)
  exact ⟨h, by decide⟩

/-- **C4**: no sleep happens after the attempt that succeeds.  In
`waitForCondition` a successful run of n evaluations ends at
`(n−1) * interval` elapsed — the n−1 sleeps lie strictly between
evaluations, none after the success — and a condition true on its very first
evaluation returns at 0 ms elapsed, consuming none of the timeout budget.
In `retryAction` a successful run's total sleep time is
`(attempts − 1) * delay`, and an action succeeding on its first invocation
returns at once with one attempt, no `onRetry` call and no sleep. -/
theorem no_sleep_after_success :
    (∀ (cond : Nat → EvalResult) (o : WaitOptions) (n el : Nat),
      waitForCondition cond o = .success n el →
        1 ≤ n ∧ el = (n - 1) * o.effInterval) ∧
    (∀ (cond : Nat → EvalResult) (o : WaitOptions),
      cond 0 = .ok true → waitForCondition cond o = .success 1 0) ∧
    (∀ (α : Type) (action : Nat → RunResult α) (o : RetryOptions) (v : α),
      (retryAction action o).result = .ok v →
        1 ≤ (retryAction action o).attempts ∧
        (retryAction action o).sleptMs =
          ((retryAction action o).attempts - 1) * o.effDelay) ∧
    (∀ (α : Type) (action : Nat → RunResult α) (o : RetryOptions) (v : α),
      action 1 = .ok v →
        retryAction action o =
          { result := .ok v, attempts := 1, onRetryCalls := []
            sleptMs := 0 }) := by
  refine ⟨?_, ?_, ?_, ?_⟩
  · intro cond o n el h
    rw [waitForCondition_eq_loop] at h
    exact waitLoop_success_shape cond o.effTimeout o.effInterval o.effMessage
      (o.effTimeout + 1) 0 n el h
  · intro cond o h
    rw [waitForCondition_eq_loop]
    have hK : 0 * o.effInterval < o.effTimeout := by
      simpa using effTimeout_pos o
    have hloop := waitLoop_succeeds cond o.effTimeout o.effInterval
      o.effMessage 0 hK (fun j hj => absurd hj (by omega)) h 0 0
      (o.effTimeout + 1) (by omega) (by omega)
    simpa using hloop
  · intro α action o v h
    exact retryLoop_ok_shape action o.effMaxRetries o.effDelay
      o.effMaxRetries 1 none v h
  · intro α action o v h
    obtain ⟨l, hl⟩ : ∃ l, o.effMaxRetries = l + 1 :=
      ⟨o.effMaxRetries - 1, by have := effMaxRetries_pos o; omega⟩
    show retryLoop action o.effMaxRetries o.effDelay o.effMaxRetries 1 none =
      _
    rw [hl]
    simp only [retryLoop, h]

/-- Witness for C4: a condition true at once succeeds at 0 ms with one
evaluation; an action succeeding at once returns with one attempt, no
`onRetry` call and no sleep. -/
theorem no_sleep_after_success_witness :
    (1 ≤ 1 ∧ (0 : Nat) =
      (1 - 1) * (⟨none, none, none⟩ : WaitOptions).effInterval) ∧
    waitForCondition (fun _ => .ok true) ⟨none, none, none⟩ =
      .success 1 0 ∧
    (1 ≤ (retryAction (fun _ => (.ok 7 : RunResult Nat))
        ⟨none, none⟩).attempts ∧
      (retryAction (fun _ => (.ok 7 : RunResult Nat)) ⟨none, none⟩).sleptMs =
        ((retryAction (fun _ => (.ok 7 : RunResult Nat))
          ⟨none, none⟩).attempts - 1) *
          (⟨none, none⟩ : RetryOptions).effDelay) ∧
    retryAction (fun _ => (.ok 7 : RunResult Nat)) ⟨none, none⟩ =
      { result := .ok 7, attempts := 1, onRetryCalls := [], sleptMs := 0 } :=
  ⟨no_sleep_after_success.1 (fun _ => .ok true) ⟨none, none, none⟩ 1 0
      (by decide),
    no_sleep_after_success.2.1 (fun _ => .ok true) ⟨none, none, none⟩ rfl,
    no_sleep_after_success.2.2.1 Nat (fun _ => .ok 7) ⟨none, none⟩ 7 rfl,
    no_sleep_after_success.2.2.2 Nat (fun _ => .ok 7) ⟨none, none⟩ 7 rfl⟩

/-- **C7 (amended)**: whenever the *effective* interval is at least the
*effective* timeout — e.g. explicit positive `timeout ≤ interval` — the
condition is evaluated exactly once before the call fails with the timeout
error, because the elapsed-time guard is checked before any sleep.  (The
claim's `timeout: 0` instance does not belong here: `||`-defaulting replaces
an explicit 0 with the 10000 ms default, see the counterexample.) -/
theorem waitForCondition_single_eval_when_interval_ge_timeout
    (cond : Nat → EvalResult) (t i : Nat) (m : String)
    (ht : 0 < t) (hti : t ≤ i) (hm : m ≠ "")
    (hc : cond 0 ≠ .ok true) :
    waitForCondition cond ⟨some t, some i, some m⟩ =
      .timedOut 1 i (timeoutMsg m t) := by
  have hi : 0 < i := by omega
  have hloop := waitLoop_times_out cond t i m 1 (by simpa using hti)
    (fun j hj => by
      have hj0 : j = 0 := by omega
      subst hj0
      simpa using ht)
    (fun j hj => by
      have hj0 : j = 0 := by omega
      subst hj0
      exact hc)
    1 0 (t + 1) (by omega) (by omega)
  rw [waitForCondition_explicit cond t i (some m) ht hi,
    jsOrStr_some_ne _ hm]
  simpa using hloop

/-- Witness for the amended C7: timeout 50 ms, interval 80 ms, a `false`
condition: exactly one evaluation, then the timeout throw at 80 ms. -/
theorem waitForCondition_single_eval_witness :
    waitForCondition (fun _ => .ok false) ⟨some 50, some 80, some "w"⟩ =
      .timedOut 1 80 (timeoutMsg "w" 50) :=
  waitForCondition_single_eval_when_interval_ge_timeout (fun _ => .ok false)
    50 80 "w" (by decide) (by decide) (by decide) (by simp)

/-- Counterexample to C7 as stated: with an explicit `timeout: 0` (and
interval 1000 ms) the `||` defaulting replaces 0 by 10000 ms, so a
never-true condition is evaluated 10 times — not exactly once — before the
timeout error (which reports 10000 ms, not 0 ms). -/
theorem waitForCondition_timeout_zero_not_single_eval :
    waitForCondition (fun _ => .ok false) ⟨some 0, some 1000, some "m"⟩ =
      .timedOut 10 10000 (timeoutMsg "m" 10000) ∧ (10 : Nat) ≠ 1 :=
  ⟨by decide, by decide⟩

/-- **C8 (amended)**: `waitForApiCondition` runs its own polling loop, equal
in observable shape (evaluations, elapsed time, success/timeout) to
`waitForCondition` with the same explicit timeout and interval *as long as
no poll attempt throws*; but it does not share the evaluator's error
tolerance — an error thrown while fetching or testing a response during a
poll attempt propagates to the caller at once and aborts polling. -/
theorem waitForApiCondition_refines_evaluator
    (cond : Nat → EvalResult) (t i : Nat) (mo : Option String)
    (ht : 0 < t) (hi : 0 < i)
    (hnoerr : ∀ k s, cond k ≠ .err s) :
    (waitForApiCondition cond ⟨some t, some i⟩).stripMsg =
      (waitForCondition cond ⟨some t, some i, mo⟩).stripMsg ∧
    (∀ (c : Nat → EvalResult) (s : String) (o : ApiWaitOptions),
      c 0 = .err s → waitForApiCondition c o = .errored 1 0 s) := by
  constructor
  · have h1 : waitForApiCondition cond ⟨some t, some i⟩ =
        apiWaitLoop cond t i (t + 1) 0 := by
      simp only [waitForApiCondition, ApiWaitOptions.effTimeout,
        ApiWaitOptions.effInterval, jsOrNat_some_pos _ ht,
        jsOrNat_some_pos _ hi]
    rw [h1, waitForCondition_explicit cond t i mo ht hi]
    exact apiWaitLoop_stripMsg_eq cond t i _ hnoerr (t + 1) 0
  · intro c s o hc
    have hpos := apiEffTimeout_pos o
    show apiWaitLoop c o.effTimeout o.effInterval (o.effTimeout + 1) 0 = _
    simp only [apiWaitLoop]
    rw [if_pos (by simpa using hpos), hc]
    simp

/-- Witness for the amended C8: a non-throwing condition true from its
second evaluation on, explicit timeout 100 ms / interval 30 ms — the two
pollers agree; and a fetch that throws at once propagates `"x"`. -/
theorem waitForApiCondition_refines_evaluator_witness :
    (waitForApiCondition (fun k => .ok (decide (1 ≤ k)))
        ⟨some 100, some 30⟩).stripMsg =
      (waitForCondition (fun k => .ok (decide (1 ≤ k)))
        ⟨some 100, some 30, some "m"⟩).stripMsg ∧
    waitForApiCondition (fun _ => .err "x") ⟨none, none⟩ =
      .errored 1 0 "x" := by
  have h := waitForApiCondition_refines_evaluator
    (fun k => .ok (decide (1 ≤ k))) 100 30 (some "m") (by decide) (by decide)
    (fun k s => by simp)
  exact ⟨h.1, h.2 (fun _ => .err "x") "x" ⟨none, none⟩ rfl⟩

/-- Counterexample to C8 as stated: for the same condition ("fetch and
test", throwing on the first poll and true on the second) and the same
explicit timeout and interval, `waitForApiCondition` propagates the error at
once while `waitForCondition` swallows it and succeeds on the second
evaluation — the two functions do not behave alike. -/
theorem waitForApiCondition_not_error_tolerant :
    waitForApiCondition (fun k => if k = 0 then .err "boom" else .ok true)
        ⟨some 100, some 30⟩ = .errored 1 0 "boom" ∧
    waitForCondition (fun k => if k = 0 then .err "boom" else .ok true)
        ⟨some 100, some 30, some "m"⟩ = .success 2 30 ∧
    waitForApiCondition (fun k => if k = 0 then .err "boom" else .ok true)
        ⟨some 100, some 30⟩ ≠
      waitForCondition (fun k => if k = 0 then .err "boom" else .ok true)
        ⟨some 100, some 30, some "m"⟩ :=
  ⟨by decide, by decide, by decide⟩

/-- **C9**: when an option is omitted, `waitForCondition` uses the default
timeout `TIMEOUTS.MEDIUM` = 10000 ms and the default interval `WAIT.RETRY`
= 2000 ms, and `retryAction` uses the default `maxRetries` 3 and default
delay `WAIT.RETRY` = 2000 ms; behaviourally, omitting the options is the
same as passing the default values explicitly. -/
theorem default_configuration :
    TIMEOUTS.MEDIUM = 10000 ∧ WAIT.RETRY = 2000 ∧
    (∀ o : WaitOptions, o.timeout = none →
      o.effTimeout = TIMEOUTS.MEDIUM) ∧
    (∀ o : WaitOptions, o.interval = none → o.effInterval = WAIT.RETRY) ∧
    (∀ o : RetryOptions, o.maxRetries = none → o.effMaxRetries = 3) ∧
    (∀ o : RetryOptions, o.delay = none → o.effDelay = WAIT.RETRY) ∧
    (∀ (cond : Nat → EvalResult) (mo : Option String),
      waitForCondition cond ⟨none, none, mo⟩ =
        waitForCondition cond ⟨some 10000, some 2000, mo⟩) ∧
    (∀ (α : Type) (action : Nat → RunResult α),
      retryAction action ⟨none, none⟩ =
        retryAction action ⟨some 3, some 2000⟩) := by
  refine ⟨rfl, rfl, ?_, ?_, ?_, ?_, fun cond mo => rfl, fun α action => rfl⟩
  · intro o h
    simp [WaitOptions.effTimeout, h, jsOrNat]
  · intro o h
    simp [WaitOptions.effInterval, h, jsOrNat]
  · intro o h
    simp [RetryOptions.effMaxRetries, h, jsOrNat]
  · intro o h
    simp [RetryOptions.effDelay, h, jsOrNat]

/-- Witness for C9: the defaults read off an options record with every
field omitted, and the behavioural equalities at a concrete condition and
action. -/
theorem default_configuration_witness :
    (⟨none, none, none⟩ : WaitOptions).effTimeout = TIMEOUTS.MEDIUM ∧
    (⟨none, none, none⟩ : WaitOptions).effInterval = WAIT.RETRY ∧
    (⟨none, none⟩ : RetryOptions).effMaxRetries = 3 ∧
    (⟨none, none⟩ : RetryOptions).effDelay = WAIT.RETRY ∧
    waitForCondition (fun _ => .ok true) ⟨none, none, none⟩ =
      waitForCondition (fun _ => .ok true) ⟨some 10000, some 2000, none⟩ ∧
    retryAction (fun _ => (.ok 5 : RunResult Nat)) ⟨none, none⟩ =
      retryAction (fun _ => (.ok 5 : RunResult Nat)) ⟨some 3, some 2000⟩ :=
  ⟨default_configuration.2.2.1 ⟨none, none, none⟩ rfl,
    default_configuration.2.2.2.1 ⟨none, none, none⟩ rfl,
    default_configuration.2.2.2.2.1 ⟨none, none⟩ rfl,
    default_configuration.2.2.2.2.2.1 ⟨none, none⟩ rfl,
    default_configuration.2.2.2.2.2.2.1 (fun _ => .ok true) none,
    default_configuration.2.2.2.2.2.2.2 Nat (fun _ => .ok 5)⟩

/-- **C10**: because `||`-defaulting treats 0 as falsy, an explicit zero
option is indistinguishable from omitting the option: `timeout: 0` yields
the default effective timeout 10000 ms, `interval: 0` the default 2000 ms,
`maxRetries: 0` the default 3 and `delay: 0` the default 2000 ms — a zero
never means an empty timeout budget, zero attempts, or no delay. -/
theorem zero_option_uses_default :
    (∀ (cond : Nat → EvalResult) (i' : Option Nat) (mo : Option String),
      waitForCondition cond ⟨some 0, i', mo⟩ =
        waitForCondition cond ⟨none, i', mo⟩) ∧
    (∀ (cond : Nat → EvalResult) (t' : Option Nat) (mo : Option String),
      waitForCondition cond ⟨t', some 0, mo⟩ =
        waitForCondition cond ⟨t', none, mo⟩) ∧
    (∀ (α : Type) (action : Nat → RunResult α) (d' : Option Nat),
      retryAction action ⟨some 0, d'⟩ = retryAction action ⟨none, d'⟩) ∧
    (∀ (α : Type) (action : Nat → RunResult α) (m' : Option Nat),
      retryAction action ⟨m', some 0⟩ = retryAction action ⟨m', none⟩) ∧
    (∀ (i' : Option Nat) (mo : Option String),
      WaitOptions.effTimeout ⟨some 0, i', mo⟩ = 10000) ∧
    (∀ (t' : Option Nat) (mo : Option String),
      WaitOptions.effInterval ⟨t', some 0, mo⟩ = 2000) ∧
    (∀ d' : Option Nat, RetryOptions.effMaxRetries ⟨some 0, d'⟩ = 3) ∧
    (∀ m' : Option Nat, RetryOptions.effDelay ⟨m', some 0⟩ = 2000) :=
  ⟨fun _ _ _ => rfl, fun _ _ _ => rfl, fun _ _ _ => rfl, fun _ _ _ => rfl,
    fun _ _ => rfl, fun _ _ => rfl, fun _ => rfl, fun _ => rfl⟩
